import Mathlib

/-
Verification of the Nyay Sarthi backend (src/backend/main.py): the
Sentencing Recommendation Engine (NyaySarthiTool.recommend_sentence over the
static historical_data table) and the Case Lifecycle Manager (case_files_db
with create / get / add_evidence / update_status).

Numeric model: Python evaluates sum(sentences) / len(sentences) as an
IEEE-754 binary64 division of two exact integers, and then round(mean, 1).
`fl` rounds an exact rational to the nearest binary64 value (ties to even;
normal range, which covers every value arising here), modelling the float
division; `pyRound1` models CPython's round(x, 1) on a float, which rounds
the exact binary value of the double to one decimal digit with ties to
even.  We represent the result of round(x, 1) by its exact decimal value
(an integer number of tenths); CPython stores the double nearest that
decimal and prints it back as that decimal, so equality comparisons with
one-decimal constants are preserved by this representation.

All rational values are built with Rat.divInt and taken apart with .num and
.den, and all decisions are made on integers, so that every definition
reduces by computation (the ordinary rational field operations are
irreducible in this library version).
-/

set_option maxHeartbeats 1000000

/-- Base-2 logarithm of a natural number, fuel-driven so that it reduces by
iota rules: log2fuel fuel n counts the halvings of n needed to fall below 2,
provided fuel is at least that count. -/
def log2fuel : ℕ → ℕ → ℕ
  | 0, _ => 0
  | fuel + 1, n => if 2 ≤ n then log2fuel fuel (n / 2) + 1 else 0

/-- Floor of log₂ n (0 for n ≤ 1). -/
def natlog2 (n : ℕ) : ℕ := log2fuel n n

/-- Multiply a rational by 2 ^ k (k an arbitrary integer), using only
integer arithmetic on the numerator and denominator. -/
def mulPow2 (x : ℚ) (k : ℤ) : ℚ :=
  if 0 ≤ k then Rat.divInt (x.num * 2 ^ k.toNat) (x.den : ℤ)
  else Rat.divInt x.num ((x.den : ℤ) * 2 ^ (-k).toNat)

/-- Round a rational to the nearest integer, ties to even. -/
def rhe (x : ℚ) : ℤ :=
  let n := Int.fdiv x.num (x.den : ℤ)
  let r := x.num - n * (x.den : ℤ)
  if 2 * r < (x.den : ℤ) then n
  else if (x.den : ℤ) < 2 * r then n + 1
  else if n % 2 = 0 then n else n + 1

/-- Binary exponent of a nonzero rational: the unique e with
2 ^ e ≤ |x| < 2 ^ (e + 1). -/
def qexp (x : ℚ) : ℤ :=
  let a := x.num.natAbs
  let b := x.den
  let d : ℤ := (natlog2 a : ℤ) - (natlog2 b : ℤ)
  if (if 0 ≤ d then (b : ℤ) * 2 ^ d.toNat ≤ (a : ℤ) else (b : ℤ) ≤ (a : ℤ) * 2 ^ (-d).toNat)
  then d else d - 1

/-- Round a rational to the nearest IEEE-754 binary64 value (ties to even),
as an exact rational.  Models the value of a Python float whose exact
mathematical value would be x; normal range only (no overflow and no
subnormals), which covers every quantity arising in this program. -/
def fl (x : ℚ) : ℚ :=
  if x.num = 0 then Rat.divInt 0 1
  else
    let e := qexp x
    let m := rhe (mulPow2 (Rat.divInt (x.num.natAbs : ℤ) (x.den : ℤ)) (52 - e))
    let n := if x.num < 0 then -m else m
    mulPow2 (Rat.divInt n 1) (e - 52)

/-- CPython round(x, 1) on a float x (given here as its exact rational
value): round the exact value to one decimal digit, ties to even.  The
result is represented by its exact decimal value. -/
def pyRound1 (x : ℚ) : ℚ := Rat.divInt (rhe (Rat.divInt (x.num * 10) (x.den : ℤ))) 10

/-- Exact rational mean of a list of integers (sum divided by length). -/
def ratMean (l : List ℤ) : ℚ := Rat.divInt l.sum (l.length : ℤ)

/-- Python min over a nonempty list given as head and tail. -/
def pyMin (x : ℤ) (xs : List ℤ) : ℤ := xs.foldl min x

/-- Python max over a nonempty list given as head and tail. -/
def pyMax (x : ℤ) (xs : List ℤ) : ℤ := xs.foldl max x

/-- One record of the static historical table (main.py line 124): a dict with
keys case_id, crime_type, severity_score, sentence_given_months. -/
structure HistCase where
  case_id : String
  crime_type : String
  severity_score : ℤ
  sentence_given_months : ℤ
deriving DecidableEq

/-- The sentence_given_months column of a list of cases
(`sentences = [c['sentence_given_months'] for c in cases]`). -/
def sentencesOf (l : List HistCase) : List ℤ :=
  l.map (fun x => x.sentence_given_months)

/-- The statistics dict built by get_stats (main.py lines 109-112). -/
structure Stats where
  recommendation_months : ℚ
  min_sentence : ℤ
  max_sentence : ℤ
  case_count : ℕ
deriving DecidableEq

/-- The response dict of recommend_sentence: status / data / basis
(main.py lines 113-122). -/
structure SentencingResult where
  status : String
  data : Option Stats
  basis : String
deriving DecidableEq

/-- get_stats (main.py lines 109-112): None on an empty list, otherwise the
mean (float division then round(·, 1)), min, max and count of the
sentence_given_months of the cases. -/
def get_stats : List HistCase → Option Stats
  | [] => none
  | c :: cs =>
    some { recommendation_months := pyRound1 (fl (ratMean (sentencesOf (c :: cs)))),
           min_sentence := pyMin c.sentence_given_months (sentencesOf cs),
           max_sentence := pyMax c.sentence_given_months (sentencesOf cs),
           case_count := (c :: cs).length }

/-- The static historical dataset (main.py line 124). -/
def historical_data : List HistCase :=
  [⟨"HN001", "Theft", 2, 3⟩,
   ⟨"HN002", "Assault", 3, 12⟩,
   ⟨"HN003", "Burglary", 4, 24⟩,
   ⟨"HN004", "Fraud", 5, 60⟩,
   ⟨"HN005", "Theft", 2, 4⟩,
   ⟨"HN006", "Vandalism", 1, 1⟩,
   ⟨"HN007", "Burglary", 4, 30⟩,
   ⟨"HN008", "Assault", 4, 18⟩,
   ⟨"HN009", "Theft", 3, 6⟩,
   ⟨"HN010", "Burglary", 4, 28⟩]

/-- Tier-1 selection (main.py line 113): cases whose crime_type and
severity_score both equal the query exactly. -/
def matching_cases (crime_type : String) (severity_score : ℤ) : List HistCase :=
  historical_data.filter
    (fun c => c.crime_type == crime_type && c.severity_score == severity_score)

/-- Tier-2 candidate severities (main.py line 117): severity ± 1, kept only
inside [1, 5]. -/
def adjacent (severity_score : ℤ) : List ℤ :=
  [severity_score - 1, severity_score + 1].filter
    (fun t => decide (1 ≤ t) && decide (t ≤ 5))

/-- Tier-2 selection (main.py line 118): same crime_type, severity_score in
the adjacent candidate set. -/
def similar_cases (crime_type : String) (severity_score : ℤ) : List HistCase :=
  historical_data.filter
    (fun c => c.crime_type == crime_type && (adjacent severity_score).contains c.severity_score)

/-- NyaySarthiTool.recommend_sentence (main.py lines 108-122).  The Python
code guards each tier with list truthiness and then subscripts the dict that
get_stats returned; a None from get_stats in a taken branch would raise, so
the embedding is Option-valued, with none modelling that (unreachable)
crash. -/
def recommend_sentence (crime_type : String) (severity_score : ℤ) :
    Option SentencingResult :=
  match matching_cases crime_type severity_score with
  | mc :: rest =>
    (get_stats (mc :: rest)).map (fun stats =>
      { status := "Success", data := some stats,
        basis := "Direct match from " ++ toString stats.case_count ++ " historical case(s)." })
  | [] =>
    match similar_cases crime_type severity_score with
    | sc :: rest =>
      (get_stats (sc :: rest)).map (fun stats =>
        { status := "Success (Estimated)", data := some stats,
          basis := "Estimate based on " ++ toString stats.case_count ++ " case(s) with similar severity." })
    | [] =>
      some { status := "Failed", data := none,
             basis := "No historical data found for this crime type." }

/-- One entry of a case's evidence log (main.py line 174): the
caller-supplied item and the wall-clock timestamp string captured by
datetime.datetime.now().strftime at append time. -/
structure EvidenceEntry where
  evidence_item : String
  timestamp : String
deriving DecidableEq

/-- CriminalCase (main.py lines 167-177). -/
structure CriminalCase where
  case_id : String
  defendant_name : String
  evidence_log : List EvidenceEntry
  case_status : String
deriving DecidableEq

/-- The CriminalCase constructor (main.py lines 168-172): empty evidence
log, status "Investigation". -/
def CriminalCase.init (case_id defendant_name : String) : CriminalCase :=
  { case_id := case_id, defendant_name := defendant_name,
    evidence_log := [], case_status := "Investigation" }

/-- CriminalCase.add_evidence (main.py lines 173-174).  The wall clock is an
input of the model: now is the strftime("%Y-%m-%d %H:%M:%S") string captured
inside the Python method. -/
def CriminalCase.add_evidence (c : CriminalCase) (evidence_item now : String) : CriminalCase :=
  { c with evidence_log := c.evidence_log ++ [{ evidence_item := evidence_item, timestamp := now }] }

/-- CriminalCase.update_status (main.py lines 175-176). -/
def CriminalCase.update_status (c : CriminalCase) (new_status : String) : CriminalCase :=
  { c with case_status := new_status }

/-- The case_files_db dict (main.py line 165), as an insertion-ordered
association list with (in every reachable state) unique keys: a Python dict
maps each key to at most one object. -/
abbrev CaseDB := List (String × CriminalCase)

/-- Key membership, `case_id in case_files_db`. -/
def dbMem (db : CaseDB) (case_id : String) : Bool :=
  db.any (fun p => p.1 == case_id)

/-- Key lookup, `case_files_db.get(case_id)`. -/
def dbGet (db : CaseDB) (case_id : String) : Option CriminalCase :=
  (db.find? (fun p => p.1 == case_id)).map (fun p => p.2)

/-- Replace the object stored under a key.  In Python the CriminalCase
object is mutated in place while the dict keeps pointing at it; here the
updated object is written back under the same key. -/
def dbSet (db : CaseDB) (case_id : String) (c : CriminalCase) : CaseDB :=
  db.map (fun p => if p.1 == case_id then (p.1, c) else p)

/-- The response dicts of the case-file endpoints: a status string plus an
optional message and an optional case payload (case.to_dict()). -/
structure ApiResponse where
  status : String
  message : Option String := none
  data : Option CriminalCase := none
deriving DecidableEq

/-- api_create_case (main.py lines 183-189): reject an existing case_id with
an error response and no state change, otherwise insert a fresh record with
empty evidence log and status "Investigation". -/
def api_create_case (db : CaseDB) (case_id defendant_name : String) :
    ApiResponse × CaseDB :=
  if dbMem db case_id then
    ({ status := "error", message := some "Case ID already exists." }, db)
  else
    let new_case := CriminalCase.init case_id defendant_name
    ({ status := "success", data := some new_case }, db ++ [(case_id, new_case)])

/-- api_get_case (main.py lines 191-196). -/
def api_get_case (db : CaseDB) (case_id : String) : ApiResponse :=
  match dbGet db case_id with
  | some c => { status := "success", data := some c }
  | none => { status := "not_found", message := some "Case not found." }

/-- api_add_evidence (main.py lines 198-204); now is the wall-clock string
captured inside CriminalCase.add_evidence. -/
def api_add_evidence (db : CaseDB) (case_id evidence_item now : String) :
    ApiResponse × CaseDB :=
  match dbGet db case_id with
  | some c =>
    let c2 := c.add_evidence evidence_item now
    ({ status := "success", data := some c2 }, dbSet db case_id c2)
  | none => ({ status := "not_found", message := some "Case not found." }, db)

/-- api_update_status (main.py lines 206-212). -/
def api_update_status (db : CaseDB) (case_id new_status : String) :
    ApiResponse × CaseDB :=
  match dbGet db case_id with
  | some c =>
    let c2 := c.update_status new_status
    ({ status := "success", data := some c2 }, dbSet db case_id c2)
  | none => ({ status := "not_found", message := some "Case not found." }, db)

/-- The evidence log of c2 extends the evidence log of c1: every existing
entry is kept, in place and unchanged, and entries are only added at the
end. -/
def logExtends (c1 c2 : CriminalCase) : Prop :=
  ∃ t, c2.evidence_log = c1.evidence_log ++ t

/-- What a direct (tier-1) match returns: the "Success" status, the
direct-match basis string, and statistics over exactly the tier-1 matching
cases — count is their number, the recommendation is their mean as a Python
float rounded to one decimal, and min/max are genuine minimum and maximum of
their sentence months. -/
def DirectSpec (c : String) (s : ℤ) : Prop :=
  ∃ st : Stats,
    recommend_sentence c s =
      some { status := "Success", data := some st,
             basis := "Direct match from " ++ toString st.case_count ++ " historical case(s)." } ∧
    st.case_count = (matching_cases c s).length ∧
    st.recommendation_months = pyRound1 (fl (ratMean (sentencesOf (matching_cases c s)))) ∧
    st.min_sentence ∈ sentencesOf (matching_cases c s) ∧
    (∀ y ∈ sentencesOf (matching_cases c s), st.min_sentence ≤ y) ∧
    st.max_sentence ∈ sentencesOf (matching_cases c s) ∧
    (∀ y ∈ sentencesOf (matching_cases c s), y ≤ st.max_sentence)

/-- What an estimated (tier-2) match returns: the "Success (Estimated)"
status, the estimate basis string, and statistics pooled over all tier-2
similar cases (the union over both in-range neighbor severities, each case
weighted equally). -/
def EstimatedSpec (c : String) (s : ℤ) : Prop :=
  ∃ st : Stats,
    recommend_sentence c s =
      some { status := "Success (Estimated)", data := some st,
             basis := "Estimate based on " ++ toString st.case_count ++ " case(s) with similar severity." } ∧
    st.case_count = (similar_cases c s).length ∧
    st.recommendation_months = pyRound1 (fl (ratMean (sentencesOf (similar_cases c s)))) ∧
    st.min_sentence ∈ sentencesOf (similar_cases c s) ∧
    (∀ y ∈ sentencesOf (similar_cases c s), st.min_sentence ≤ y) ∧
    st.max_sentence ∈ sentencesOf (similar_cases c s) ∧
    (∀ y ∈ sentencesOf (similar_cases c s), y ≤ st.max_sentence)

/-- Outcome of creating a case twice under the same id (second defendant
name possibly different), starting from a registry where the id is free:
first call succeeds, second call fails with the duplicate error and changes
nothing, and the stored record keeps the first call's defendant name. -/
def CreatePairSpec (db : CaseDB) (id n1 n2 : String) : Prop :=
  (api_create_case db id n1).1.status = "success" ∧
  (api_create_case (api_create_case db id n1).2 id n2).1 =
    { status := "error", message := some "Case ID already exists." } ∧
  (api_create_case (api_create_case db id n1).2 id n2).2 = (api_create_case db id n1).2 ∧
  (api_get_case (api_create_case db id n1).2 id).data = some (CriminalCase.init id n1) ∧
  (CriminalCase.init id n1).defendant_name = n1

/-- Outcome of a successful api_add_evidence on a registry holding record c
under id: success response carrying the updated record, the registry now
holds the updated record, and the updated log is the old log with exactly
the one new entry appended (length + 1, old entries unchanged in place). -/
def AddEvidenceSpec (db : CaseDB) (id item now : String) (c : CriminalCase) : Prop :=
  (api_add_evidence db id item now).1.status = "success" ∧
  (api_add_evidence db id item now).1.data = some (c.add_evidence item now) ∧
  dbGet (api_add_evidence db id item now).2 id = some (c.add_evidence item now) ∧
  (c.add_evidence item now).evidence_log =
    c.evidence_log ++ [{ evidence_item := item, timestamp := now }] ∧
  (c.add_evidence item now).evidence_log.length = c.evidence_log.length + 1 ∧
  (c.add_evidence item now).evidence_log.take c.evidence_log.length = c.evidence_log

/-- Outcome of a successful api_update_status on a registry holding record c
under id: the status string is overwritten unconditionally and a subsequent
api_get_case returns a record whose case_status is exactly the new value. -/
def UpdateStatusSpec (db : CaseDB) (id ns : String) (c : CriminalCase) : Prop :=
  api_update_status db id ns =
    ({ status := "success", data := some (c.update_status ns) },
      dbSet db id (c.update_status ns)) ∧
  (api_get_case (api_update_status db id ns).2 id).data = some (c.update_status ns) ∧
  (c.update_status ns).case_status = ns

/-- A concrete case record and one-entry registry, used to instantiate the
registry theorems. -/
def caseAlice : CriminalCase :=
  { case_id := "C1", defendant_name := "Alice", evidence_log := [], case_status := "Investigation" }

/-- A one-record registry holding caseAlice under "C1". -/
def dbAlice : CaseDB := [("C1", caseAlice)]

/-- Four historical cases whose sentence months average exactly 3.25
(13/4, an exact half at the second decimal with even tenths digit 2). -/
def mean325cases : List HistCase :=
  [⟨"M1", "T", 1, 3⟩, ⟨"M2", "T", 1, 3⟩, ⟨"M3", "T", 1, 3⟩, ⟨"M4", "T", 1, 4⟩]

/-- Twenty historical cases whose sentence months average exactly 2.45
(49/20, an exact half at the second decimal with even tenths digit 4). -/
def mean245cases : List HistCase :=
  List.replicate 19 ⟨"M5", "T", 1, 2⟩ ++ [⟨"M6", "T", 1, 11⟩]

/-- Decidable check, for one concrete query, of the bound
minSentence ≤ recommendationMonths ≤ maxSentence whenever the status is not
the no-data "Failed". -/
def boundsOk (c : String) (s : ℤ) : Bool :=
  match recommend_sentence c s with
  | some r =>
    r.status == "Failed" ||
      (match r.data with
       | some st =>
         decide ((st.min_sentence : ℚ) ≤ st.recommendation_months) &&
           decide (st.recommendation_months ≤ (st.max_sentence : ℚ))
       | none => false)
  | none => false

/-- The fold computing Python min is a lower bound of the seed and of every
list element. -/
theorem pyMin_le (xs : List ℤ) : ∀ x : ℤ, pyMin x xs ≤ x ∧ ∀ y ∈ xs, pyMin x xs ≤ y := by
  induction xs with
  | nil => intro x; exact ⟨le_refl x, by intro y hy; cases hy⟩
  | cons a t ih =>
    intro x
    have h := ih (min x a)
    have hfold : pyMin x (a :: t) = pyMin (min x a) t := rfl
    refine ⟨hfold ▸ h.1.trans (min_le_left x a), ?_⟩
    intro y hy
    rcases List.mem_cons.mp hy with rfl | hyt
    · exact hfold ▸ h.1.trans (min_le_right x y)
    · exact hfold ▸ h.2 y hyt

/-- The fold computing Python min returns the seed or a list element. -/
theorem pyMin_mem (xs : List ℤ) : ∀ x : ℤ, pyMin x xs = x ∨ pyMin x xs ∈ xs := by
  induction xs with
  | nil => intro x; exact Or.inl rfl
  | cons a t ih =>
    intro x
    have hfold : pyMin x (a :: t) = pyMin (min x a) t := rfl
    rcases ih (min x a) with h | h
    · rcases min_choice x a with hc | hc
      · exact Or.inl (by rw [hfold, h, hc])
      · exact Or.inr (by rw [hfold, h, hc]; exact List.mem_cons_self a t)
    · exact Or.inr (hfold ▸ List.mem_cons_of_mem a h)

/-- The fold computing Python max is an upper bound of the seed and of every
list element. -/
theorem pyMax_ge (xs : List ℤ) : ∀ x : ℤ, x ≤ pyMax x xs ∧ ∀ y ∈ xs, y ≤ pyMax x xs := by
  induction xs with
  | nil => intro x; exact ⟨le_refl x, by intro y hy; cases hy⟩
  | cons a t ih =>
    intro x
    have h := ih (max x a)
    have hfold : pyMax x (a :: t) = pyMax (max x a) t := rfl
    refine ⟨hfold ▸ (le_max_left x a).trans h.1, ?_⟩
    intro y hy
    rcases List.mem_cons.mp hy with rfl | hyt
    · exact hfold ▸ (le_max_right x y).trans h.1
    · exact hfold ▸ h.2 y hyt

/-- The fold computing Python max returns the seed or a list element. -/
theorem pyMax_mem (xs : List ℤ) : ∀ x : ℤ, pyMax x xs = x ∨ pyMax x xs ∈ xs := by
  induction xs with
  | nil => intro x; exact Or.inl rfl
  | cons a t ih =>
    intro x
    have hfold : pyMax x (a :: t) = pyMax (max x a) t := rfl
    rcases ih (max x a) with h | h
    · rcases max_choice x a with hc | hc
      · exact Or.inl (by rw [hfold, h, hc])
      · exact Or.inr (by rw [hfold, h, hc]; exact List.mem_cons_self a t)
    · exact Or.inr (hfold ▸ List.mem_cons_of_mem a h)

/-- Appending a fresh binding to a registry that does not contain its key
makes lookup of that key find the new binding. -/
theorem dbGet_append_fresh (db : CaseDB) (id : String) (v : CriminalCase)
    (h : dbMem db id = false) : dbGet (db ++ [(id, v)]) id = some v := by
  induction db with
  | nil => simp [dbGet, List.find?]
  | cons p t ih =>
    rw [dbMem, List.any_cons, Bool.or_eq_false_iff] at h
    show Option.map (fun q => q.2) (List.find? (fun q => q.1 == id) (p :: (t ++ [(id, v)])))
        = some v
    rw [List.find?_cons]
    simp only [h.1]
    exact ih h.2

/-- Appending bindings on the right does not change a lookup that already
succeeds. -/
theorem dbGet_append_left (db l : CaseDB) (k : String) (c : CriminalCase)
    (h : dbGet db k = some c) : dbGet (db ++ l) k = some c := by
  rw [dbGet, List.find?_append]
  rw [dbGet] at h
  cases hf : List.find? (fun p => p.1 == k) db with
  | none => rw [hf] at h; cases h
  | some p => rw [hf] at h; rw [Option.or]; exact h

/-- A registry extended with a binding for id contains id. -/
theorem dbMem_append_self (db : CaseDB) (id : String) (v : CriminalCase) :
    dbMem (db ++ [(id, v)]) id = true := by
  rw [dbMem, List.any_append]
  simp [List.any_cons]

/-- Writing v under a key that lookup currently resolves makes lookup return
v. -/
theorem dbGet_dbSet_self (db : CaseDB) (id : String) (c v : CriminalCase)
    (h : dbGet db id = some c) : dbGet (dbSet db id v) id = some v := by
  induction db with
  | nil => cases h
  | cons p t ih =>
    by_cases hp : (p.1 == id) = true
    · show Option.map (fun q => q.2)
          (List.find? (fun q => q.1 == id)
            ((if (p.1 == id) = true then (p.1, v) else p) :: dbSet t id v)) = some v
      rw [if_pos hp, List.find?_cons]
      simp only [hp]
      rfl
    · have hp1 : (p.1 == id) = false := by
        cases hq : (p.1 == id) with
        | true => exact absurd hq hp
        | false => rfl
      have ht : dbGet t id = some c := by
        rw [dbGet, List.find?_cons] at h
        simp only [hp1] at h
        exact h
      show Option.map (fun q => q.2)
          (List.find? (fun q => q.1 == id)
            ((if (p.1 == id) = true then (p.1, v) else p) :: dbSet t id v)) = some v
      rw [if_neg hp, List.find?_cons]
      simp only [hp1]
      exact ih ht

/-- Writing under one key does not change lookups of a different key. -/
theorem dbGet_dbSet_ne (db : CaseDB) (id k : String) (v : CriminalCase)
    (h : k ≠ id) : dbGet (dbSet db id v) k = dbGet db k := by
  induction db with
  | nil => rfl
  | cons p t ih =>
    have stepL : ∀ (q : String × CriminalCase) (l : CaseDB),
        dbGet (q :: l) k
          = (if (q.1 == k) = true then some q.2 else dbGet l k) := by
      intro q l
      by_cases hq : (q.1 == k) = true
      · rw [if_pos hq, dbGet, List.find?_cons]
        simp only [hq]
        rfl
      · have hq1 : (q.1 == k) = false := by
          cases hqq : (q.1 == k) with
          | true => exact absurd hqq hq
          | false => rfl
        rw [if_neg hq, dbGet, List.find?_cons]
        simp only [hq1]
        rfl
    by_cases hp : (p.1 == id) = true
    · have hpk : (p.1 == k) = false := by
        cases hc : (p.1 == k) with
        | true => exact absurd (by rw [← beq_iff_eq.mp hc]; exact beq_iff_eq.mp hp) h
        | false => rfl
      show dbGet ((if (p.1 == id) = true then (p.1, v) else p) :: dbSet t id v) k
          = dbGet (p :: t) k
      rw [if_pos hp, stepL (p.1, v) (dbSet t id v), stepL p t]
      simp only [hpk, if_false]
      exact ih
    · show dbGet ((if (p.1 == id) = true then (p.1, v) else p) :: dbSet t id v) k
          = dbGet (p :: t) k
      rw [if_neg hp, stepL p (dbSet t id v), stepL p t]
      by_cases hpk : (p.1 == k) = true
      · rw [if_pos hpk, if_pos hpk]
      · rw [if_neg hpk, if_neg hpk]
        exact ih

/-- C3: createCase with a caseId already in the registry fails with the
duplicate-case error response and leaves the registry exactly unchanged; in
particular, creating the same caseId twice from a registry where it is free
yields one success and one duplicate error, the registry after both calls
equals the registry after only the first call, and the stored record keeps
the first call's defendantName. -/
theorem claim3_create_duplicate_rejected :
    (∀ (db : CaseDB) (id n : String), dbMem db id = true →
      api_create_case db id n =
        ({ status := "error", message := some "Case ID already exists." }, db)) ∧
    (∀ (db : CaseDB) (id n1 n2 : String), dbMem db id = false →
      CreatePairSpec db id n1 n2) := by
  constructor
  · intro db id n h
    simp [api_create_case, h]
  · intro db id n1 n2 h
    have e1 : api_create_case db id n1 =
        ({ status := "success", data := some (CriminalCase.init id n1) },
          db ++ [(id, CriminalCase.init id n1)]) := by
      simp [api_create_case, h]
    have hm : dbMem (db ++ [(id, CriminalCase.init id n1)]) id = true :=
      dbMem_append_self db id (CriminalCase.init id n1)
    have e2 : api_create_case (db ++ [(id, CriminalCase.init id n1)]) id n2 =
        ({ status := "error", message := some "Case ID already exists." },
          db ++ [(id, CriminalCase.init id n1)]) := by
      simp [api_create_case, hm]
    have hg : dbGet (db ++ [(id, CriminalCase.init id n1)]) id
        = some (CriminalCase.init id n1) :=
      dbGet_append_fresh db id (CriminalCase.init id n1) h
    refine ⟨by rw [e1], ?_, ?_, ?_, rfl⟩
    · rw [e1, e2]
    · rw [e1, e2]
    · rw [e1]
      simp [api_get_case, hg]

/-- C3 witness: the theorem applied to the one-record registry holding "C1"
(duplicate creation rejected with no change) and to the empty registry
(create "C1"/"Alice" then "C1"/"Bob" gives success then duplicate error and
keeps Alice). -/
theorem claim3_witness :
    (dbMem dbAlice "C1" = true ∧
      api_create_case dbAlice "C1" "Bob" =
        ({ status := "error", message := some "Case ID already exists." }, dbAlice)) ∧
    (dbMem ([] : CaseDB) "C1" = false ∧ CreatePairSpec [] "C1" "Alice" "Bob") :=
  ⟨⟨by decide, claim3_create_duplicate_rejected.1 dbAlice "C1" "Bob" (by decide)⟩,
   ⟨by decide, claim3_create_duplicate_rejected.2 [] "C1" "Alice" "Bob" (by decide)⟩⟩

/-- C4: the evidence log is append-only.  A successful addEvidence returns
and stores the record with exactly one new entry appended at the end (length
+ 1, all prior entries unchanged in place), and no mutating operation of the
manager (create, addEvidence, updateStatus) ever removes, reorders or
rewrites an existing entry: every record present before any such operation
is still found afterwards with its old evidence log as a prefix. -/
theorem claim4_evidence_append_only :
    (∀ (db : CaseDB) (id item now : String) (c : CriminalCase),
        dbGet db id = some c → AddEvidenceSpec db id item now c) ∧
    (∀ (db : CaseDB) (id n k : String) (c : CriminalCase), dbGet db k = some c →
        ∃ c2, dbGet (api_create_case db id n).2 k = some c2 ∧ logExtends c c2) ∧
    (∀ (db : CaseDB) (id item now k : String) (c : CriminalCase), dbGet db k = some c →
        ∃ c2, dbGet (api_add_evidence db id item now).2 k = some c2 ∧ logExtends c c2) ∧
    (∀ (db : CaseDB) (id ns k : String) (c : CriminalCase), dbGet db k = some c →
        ∃ c2, dbGet (api_update_status db id ns).2 k = some c2 ∧ logExtends c c2) := by
  refine ⟨?_, ?_, ?_, ?_⟩
  · intro db id item now c h
    have e : api_add_evidence db id item now =
        ({ status := "success", data := some (c.add_evidence item now) },
          dbSet db id (c.add_evidence item now)) := by
      simp [api_add_evidence, h]
    refine ⟨by rw [e], by rw [e], ?_, rfl, ?_, ?_⟩
    · rw [e]
      exact dbGet_dbSet_self db id c _ h
    · simp [CriminalCase.add_evidence]
    · show (c.evidence_log ++ [_]).take c.evidence_log.length = c.evidence_log
      exact List.take_left _ _
  · intro db id n k c h
    by_cases hm : dbMem db id = true
    · refine ⟨c, ?_, ⟨[], by simp⟩⟩
      simp [api_create_case, hm]
      exact h
    · have hm2 : dbMem db id = false := by
        cases hq : dbMem db id with
        | true => exact absurd hq hm
        | false => rfl
      refine ⟨c, ?_, ⟨[], by simp⟩⟩
      have e : (api_create_case db id n).2 = db ++ [(id, CriminalCase.init id n)] := by
        simp [api_create_case, hm2]
      rw [e]
      exact dbGet_append_left db _ k c h
  · intro db id item now k c h
    cases hg : dbGet db id with
    | none =>
      refine ⟨c, ?_, ⟨[], by simp⟩⟩
      simp [api_add_evidence, hg]
      exact h
    | some c0 =>
      have e : (api_add_evidence db id item now).2 = dbSet db id (c0.add_evidence item now) := by
        simp [api_add_evidence, hg]
      by_cases hk : k = id
      · subst hk
        have hc : c = c0 := by
          rw [h] at hg
          exact (Option.some.inj hg)
        subst hc
        refine ⟨c.add_evidence item now, ?_, ⟨[{ evidence_item := item, timestamp := now }], rfl⟩⟩
        rw [e]
        exact dbGet_dbSet_self db k c _ h
      · refine ⟨c, ?_, ⟨[], by simp⟩⟩
        rw [e, dbGet_dbSet_ne db id k _ hk]
        exact h
  · intro db id ns k c h
    cases hg : dbGet db id with
    | none =>
      refine ⟨c, ?_, ⟨[], by simp⟩⟩
      simp [api_update_status, hg]
      exact h
    | some c0 =>
      have e : (api_update_status db id ns).2 = dbSet db id (c0.update_status ns) := by
        simp [api_update_status, hg]
      by_cases hk : k = id
      · subst hk
        have hc : c = c0 := by
          rw [h] at hg
          exact (Option.some.inj hg)
        subst hc
        refine ⟨c.update_status ns, ?_, ⟨[], by simp [CriminalCase.update_status]⟩⟩
        rw [e]
        exact dbGet_dbSet_self db k c _ h
      · refine ⟨c, ?_, ⟨[], by simp⟩⟩
        rw [e, dbGet_dbSet_ne db id k _ hk]
        exact h

/-- C4 witness: the theorem applied to the one-record registry holding
caseAlice under "C1", for each of the four conjuncts. -/
theorem claim4_witness :
    (dbGet dbAlice "C1" = some caseAlice ∧
      AddEvidenceSpec dbAlice "C1" "knife" "2026-01-01 00:00:00" caseAlice) ∧
    (∃ c2, dbGet (api_create_case dbAlice "C2" "Bob").2 "C1" = some c2 ∧ logExtends caseAlice c2) ∧
    (∃ c2, dbGet (api_add_evidence dbAlice "C1" "knife" "2026-01-01 00:00:00").2 "C1" = some c2 ∧
      logExtends caseAlice c2) ∧
    (∃ c2, dbGet (api_update_status dbAlice "C1" "Trial").2 "C1" = some c2 ∧
      logExtends caseAlice c2) :=
  ⟨⟨by decide, claim4_evidence_append_only.1 dbAlice "C1" "knife" "2026-01-01 00:00:00" caseAlice (by decide)⟩,
   claim4_evidence_append_only.2.1 dbAlice "C2" "Bob" "C1" caseAlice (by decide),
   claim4_evidence_append_only.2.2.1 dbAlice "C1" "knife" "2026-01-01 00:00:00" "C1" caseAlice (by decide),
   claim4_evidence_append_only.2.2.2 dbAlice "C1" "Trial" "C1" caseAlice (by decide)⟩

/-- C7: updateStatus on an existing caseId succeeds, overwrites the status
string unconditionally (no validation of the transition or the string), and
a subsequent getCase returns a record whose status equals exactly the last
applied newStatus; on an absent caseId it fails with the not-found response
and changes nothing. -/
theorem claim7_update_status_overwrite :
    (∀ (db : CaseDB) (id ns : String) (c : CriminalCase), dbGet db id = some c →
      UpdateStatusSpec db id ns c) ∧
    (∀ (db : CaseDB) (id ns : String), dbGet db id = none →
      api_update_status db id ns =
        ({ status := "not_found", message := some "Case not found." }, db)) := by
  constructor
  · intro db id ns c h
    have e : api_update_status db id ns =
        ({ status := "success", data := some (c.update_status ns) },
          dbSet db id (c.update_status ns)) := by
      simp [api_update_status, h]
    refine ⟨e, ?_, rfl⟩
    rw [e]
    simp [api_get_case, dbGet_dbSet_self db id c (c.update_status ns) h]
  · intro db id ns h
    simp [api_update_status, h]

/-- C7 witness: the theorem applied to the one-record registry (updating
"C1" to "Trial") and to the empty registry (updating the absent "C9"). -/
theorem claim7_witness :
    (dbGet dbAlice "C1" = some caseAlice ∧ UpdateStatusSpec dbAlice "C1" "Trial" caseAlice) ∧
    (dbGet ([] : CaseDB) "C9" = none ∧
      api_update_status [] "C9" "Trial" =
        ({ status := "not_found", message := some "Case not found." }, [])) :=
  ⟨⟨by decide, claim7_update_status_overwrite.1 dbAlice "C1" "Trial" caseAlice (by decide)⟩,
   ⟨by decide, claim7_update_status_overwrite.2 [] "C9" "Trial" (by decide)⟩⟩

/-- C1: whenever at least one historical case matches the query exactly
(case-sensitive crime type, exact severity), recommend returns the direct
"Success" status with the direct-match basis string, count equal to the
number of matching cases, recommendation equal to their mean (as a Python
float) rounded to one decimal, and min/max sentence equal to the true
minimum and maximum of the matching sentence months; concretely,
recommend("Theft", 2) gives 3.5 / 3 / 4 over 2 cases. -/
theorem claim1_direct_match :
    (∀ (c : String) (s : ℤ), matching_cases c s ≠ [] → DirectSpec c s) ∧
    recommend_sentence "Theft" 2 =
      some { status := "Success",
             data := some { recommendation_months := Rat.divInt 7 2, min_sentence := 3,
                            max_sentence := 4, case_count := 2 },
             basis := "Direct match from 2 historical case(s)." } := by
  constructor
  · intro c s hne
    cases hM : matching_cases c s with
    | nil => exact absurd hM hne
    | cons mc rest =>
      unfold DirectSpec
      rw [hM]
      have hsent : sentencesOf (mc :: rest) = mc.sentence_given_months :: sentencesOf rest := rfl
      refine ⟨{ recommendation_months := pyRound1 (fl (ratMean (sentencesOf (mc :: rest)))),
                min_sentence := pyMin mc.sentence_given_months (sentencesOf rest),
                max_sentence := pyMax mc.sentence_given_months (sentencesOf rest),
                case_count := (mc :: rest).length }, ?_, rfl, rfl, ?_, ?_, ?_, ?_⟩
      · unfold recommend_sentence
        rw [hM]
        rfl
      · rw [hsent]
        rcases pyMin_mem (sentencesOf rest) mc.sentence_given_months with h | h
        · rw [h]; exact List.mem_cons_self _ _
        · exact List.mem_cons_of_mem _ h
      · intro y hy
        rw [hsent] at hy
        rcases List.mem_cons.mp hy with rfl | hyt
        · exact (pyMin_le (sentencesOf rest) mc.sentence_given_months).1
        · exact (pyMin_le (sentencesOf rest) mc.sentence_given_months).2 y hyt
      · rw [hsent]
        rcases pyMax_mem (sentencesOf rest) mc.sentence_given_months with h | h
        · rw [h]; exact List.mem_cons_self _ _
        · exact List.mem_cons_of_mem _ h
      · intro y hy
        rw [hsent] at hy
        rcases List.mem_cons.mp hy with rfl | hyt
        · exact (pyMax_ge (sentencesOf rest) mc.sentence_given_months).1
        · exact (pyMax_ge (sentencesOf rest) mc.sentence_given_months).2 y hyt
  · decide

/-- C1 witness: the direct-match half of the theorem applied at the query
("Theft", 2), whose tier-1 match set is nonempty. -/
theorem claim1_witness : matching_cases "Theft" 2 ≠ [] ∧ DirectSpec "Theft" 2 :=
  ⟨by decide, claim1_direct_match.1 "Theft" 2 (by decide)⟩

/-- C2: with no exact match but at least one case of the same crime type at
a neighboring severity (s-1 or s+1, each kept only inside [1,5]), recommend
returns the estimated "Success (Estimated)" status with statistics pooled
over the union of both in-range neighbor severities — membership in the
pooled sample is characterized exactly, with both neighbors contributing
equally — and concretely recommend("Burglary", 3) pools the severity-4 cases
24, 30, 28 giving 27.3 / 24 / 30 over 3 cases. -/
theorem claim2_estimated_match :
    (∀ (c : String) (s : ℤ), matching_cases c s = [] → similar_cases c s ≠ [] →
      EstimatedSpec c s) ∧
    (∀ (c : String) (s : ℤ) (x : HistCase),
        x ∈ similar_cases c s ↔
          x ∈ historical_data ∧ x.crime_type = c ∧
          (x.severity_score = s - 1 ∨ x.severity_score = s + 1) ∧
          1 ≤ x.severity_score ∧ x.severity_score ≤ 5) ∧
    recommend_sentence "Burglary" 3 =
      some { status := "Success (Estimated)",
             data := some { recommendation_months := Rat.divInt 273 10, min_sentence := 24,
                            max_sentence := 30, case_count := 3 },
             basis := "Estimate based on 3 case(s) with similar severity." } := by
  refine ⟨?_, ?_, by decide⟩
  · intro c s hM hne
    cases hS : similar_cases c s with
    | nil => exact absurd hS hne
    | cons sc rest =>
      unfold EstimatedSpec
      rw [hS]
      have hsent : sentencesOf (sc :: rest) = sc.sentence_given_months :: sentencesOf rest := rfl
      refine ⟨{ recommendation_months := pyRound1 (fl (ratMean (sentencesOf (sc :: rest)))),
                min_sentence := pyMin sc.sentence_given_months (sentencesOf rest),
                max_sentence := pyMax sc.sentence_given_months (sentencesOf rest),
                case_count := (sc :: rest).length }, ?_, rfl, rfl, ?_, ?_, ?_, ?_⟩
      · unfold recommend_sentence
        rw [hM, hS]
        rfl
      · rw [hsent]
        rcases pyMin_mem (sentencesOf rest) sc.sentence_given_months with h | h
        · rw [h]; exact List.mem_cons_self _ _
        · exact List.mem_cons_of_mem _ h
      · intro y hy
        rw [hsent] at hy
        rcases List.mem_cons.mp hy with rfl | hyt
        · exact (pyMin_le (sentencesOf rest) sc.sentence_given_months).1
        · exact (pyMin_le (sentencesOf rest) sc.sentence_given_months).2 y hyt
      · rw [hsent]
        rcases pyMax_mem (sentencesOf rest) sc.sentence_given_months with h | h
        · rw [h]; exact List.mem_cons_self _ _
        · exact List.mem_cons_of_mem _ h
      · intro y hy
        rw [hsent] at hy
        rcases List.mem_cons.mp hy with rfl | hyt
        · exact (pyMax_ge (sentencesOf rest) sc.sentence_given_months).1
        · exact (pyMax_ge (sentencesOf rest) sc.sentence_given_months).2 y hyt
  · intro c s x
    constructor
    · intro hx
      obtain ⟨hmem, hp⟩ := List.mem_filter.mp hx
      rw [Bool.and_eq_true] at hp
      obtain ⟨hcrime, hcont⟩ := hp
      obtain ⟨y, hy, hbeq⟩ := List.contains_iff_exists_mem_beq.mp hcont
      obtain ⟨hyl, hyp⟩ := List.mem_filter.mp hy
      rw [Bool.and_eq_true, decide_eq_true_eq, decide_eq_true_eq] at hyp
      have hxy : x.severity_score = y := beq_iff_eq.mp hbeq
      refine ⟨hmem, beq_iff_eq.mp hcrime, ?_, ?_, ?_⟩
      · rcases List.mem_cons.mp hyl with rfl | hyl2
        · exact Or.inl hxy
        · rcases List.mem_cons.mp hyl2 with rfl | hyl3
          · exact Or.inr hxy
          · cases hyl3
      · rw [hxy]; exact hyp.1
      · rw [hxy]; exact hyp.2
    · rintro ⟨hmem, hcrime, hside, h1, h5⟩
      refine List.mem_filter.mpr ⟨hmem, ?_⟩
      rw [Bool.and_eq_true]
      refine ⟨beq_iff_eq.mpr hcrime, ?_⟩
      refine List.contains_iff_exists_mem_beq.mpr ⟨x.severity_score, ?_, beq_iff_eq.mpr rfl⟩
      refine List.mem_filter.mpr ⟨?_, ?_⟩
      · rcases hside with h | h
        · exact List.mem_cons.mpr (Or.inl h)
        · exact List.mem_cons.mpr (Or.inr (List.mem_cons.mpr (Or.inl h)))
      · rw [Bool.and_eq_true, decide_eq_true_eq, decide_eq_true_eq]
        exact ⟨h1, h5⟩

/-- C2 witness: the estimated-match half of the theorem applied at the query
("Burglary", 3), which has no tier-1 match but a nonempty tier-2 pool. -/
theorem claim2_witness :
    matching_cases "Burglary" 3 = [] ∧ similar_cases "Burglary" 3 ≠ [] ∧
      EstimatedSpec "Burglary" 3 :=
  ⟨by decide, by decide, claim2_estimated_match.1 "Burglary" 3 (by decide) (by decide)⟩

/-- Every record of the static dataset carries a severity score in [1,5]. -/
theorem sev_bounds : ∀ x ∈ historical_data, 1 ≤ x.severity_score ∧ x.severity_score ≤ 5 := by
  decide

/-- C8: for a crime type with no historical case at all, recommend returns
the "Failed" status with no numeric data and the no-data basis string,
whatever the severity; concretely recommend("Homicide", 5) does. -/
theorem claim8_no_data_for_crime :
    (∀ (c : String) (s : ℤ), (∀ x ∈ historical_data, x.crime_type ≠ c) →
      recommend_sentence c s =
        some { status := "Failed", data := none,
               basis := "No historical data found for this crime type." }) ∧
    recommend_sentence "Homicide" 5 =
      some { status := "Failed", data := none,
             basis := "No historical data found for this crime type." } := by
  constructor
  · intro c s hc
    have hM : matching_cases c s = [] := by
      rw [matching_cases, List.filter_eq_nil_iff]
      intro x hx hp
      rw [Bool.and_eq_true] at hp
      exact hc x hx (beq_iff_eq.mp hp.1)
    have hS : similar_cases c s = [] := by
      rw [similar_cases, List.filter_eq_nil_iff]
      intro x hx hp
      rw [Bool.and_eq_true] at hp
      exact hc x hx (beq_iff_eq.mp hp.1)
    unfold recommend_sentence
    rw [hM, hS]
  · decide

/-- C8 witness: the theorem applied at ("Homicide", 5); no dataset record
has crime type "Homicide". -/
theorem claim8_witness :
    (∀ x ∈ historical_data, x.crime_type ≠ "Homicide") ∧
    recommend_sentence "Homicide" 5 =
      some { status := "Failed", data := none,
             basis := "No historical data found for this crime type." } :=
  ⟨by decide, claim8_no_data_for_crime.1 "Homicide" 5 (by decide)⟩

/-- C9: the engine is total.  get_stats returns statistics (never None, so
the mean's division is by the nonzero length) on every nonempty case list,
and recommend_sentence produces a well-formed result on every input — the
crash marker none, which would arise exactly if a taken tier subscripted a
None from get_stats, is unreachable. -/
theorem claim9_total_no_failure :
    (∀ cases : List HistCase, cases ≠ [] → (get_stats cases).isSome = true) ∧
    (∀ (c : String) (s : ℤ), (recommend_sentence c s).isSome = true) := by
  constructor
  · intro cases h
    cases cases with
    | nil => exact absurd rfl h
    | cons a t => rfl
  · intro c s
    unfold recommend_sentence
    cases hM : matching_cases c s with
    | cons mc rest => rfl
    | nil =>
      cases hS : similar_cases c s with
      | cons sc rest => rfl
      | nil => rfl

/-- C9 witness: the theorem applied to a concrete nonempty case list and to
the concrete query ("Theft", 2). -/
theorem claim9_witness :
    ([⟨"HN001", "Theft", 2, 3⟩] : List HistCase) ≠ [] ∧
    (get_stats [⟨"HN001", "Theft", 2, 3⟩]).isSome = true ∧
    (recommend_sentence "Theft" 2).isSome = true :=
  ⟨by decide, claim9_total_no_failure.1 [⟨"HN001", "Theft", 2, 3⟩] (by decide),
   claim9_total_no_failure.2 "Theft" 2⟩

/-- C5 counterexample: severity 0 lies outside [1,5], yet
recommend("Vandalism", 0) reaches the severity-1 neighbor through the tier-2
clamp and returns the estimated status, not the no-data status — refuting
the claim that every out-of-range severity yields NoData. -/
theorem claim5_counterexample :
    ((0 : ℤ) < 1 ∨ 5 < (0 : ℤ)) ∧
    (recommend_sentence "Vandalism" 0).map SentencingResult.status =
      some "Success (Estimated)" ∧
    (recommend_sentence "Vandalism" 0).map SentencingResult.status ≠ some "Failed" := by
  decide

/-- C5 amended: for every crime type and every severity outside [0,6] the
result is the no-data "Failed" status; at the out-of-range severities 0 and
6 the tier-2 clamp can still produce an estimated match from severity 1
resp. 5 (as recommend("Vandalism", 0) shows), and in no case is an error
raised. -/
theorem claim5_amended_out_of_range :
    ∀ (c : String) (s : ℤ), s < 0 ∨ 6 < s →
      recommend_sentence c s =
        some { status := "Failed", data := none,
               basis := "No historical data found for this crime type." } := by
  intro c s hs
  have hM : matching_cases c s = [] := by
    rw [matching_cases, List.filter_eq_nil_iff]
    intro x hx hp
    rw [Bool.and_eq_true] at hp
    have hsev := beq_iff_eq.mp hp.2
    have hb := sev_bounds x hx
    omega
  have hS : similar_cases c s = [] := by
    rw [similar_cases, List.filter_eq_nil_iff]
    intro x hx hp
    rw [Bool.and_eq_true] at hp
    obtain ⟨y, hy, hbeq⟩ := List.contains_iff_exists_mem_beq.mp hp.2
    obtain ⟨hyl, hyp⟩ := List.mem_filter.mp hy
    have hxy : x.severity_score = y := beq_iff_eq.mp hbeq
    have hb := sev_bounds x hx
    rcases List.mem_cons.mp hyl with rfl | h2
    · omega
    · rcases List.mem_cons.mp h2 with rfl | h3
      · omega
      · cases h3
  unfold recommend_sentence
  rw [hM, hS]

/-- C5 witness: the amended theorem applied at ("Theft", 7), a severity
beyond any clamped neighbor. -/
theorem claim5_witness :
    ((7 : ℤ) < 0 ∨ 6 < (7 : ℤ)) ∧
    recommend_sentence "Theft" 7 =
      some { status := "Failed", data := none,
             basis := "No historical data found for this crime type." } :=
  ⟨Or.inr (by decide), claim5_amended_out_of_range "Theft" 7 (Or.inr (by decide))⟩

/-- C10 counterexample: twenty cases with mean exactly 2.45 = 49/20, an
exact half at the second decimal whose preceding (tenths) digit 4 is even;
the claim predicts rounding down to 2.4, but the engine returns 2.5, because
the binary64 nearest to 2.45 lies strictly above it. -/
theorem claim10_counterexample :
    ratMean (sentencesOf mean245cases) = Rat.divInt 49 20 ∧
    Rat.divInt 49 20 = Rat.divInt 245 100 ∧
    (get_stats mean245cases).map Stats.recommendation_months = some (Rat.divInt 5 2) ∧
    Rat.divInt 5 2 ≠ Rat.divInt 24 10 := by
  decide

/-- C10 amended: round-half-to-even acts on the binary64 value of the mean,
not on its decimal writing.  For any nonempty case set: if the exact mean is
3.25 = 13/4 (exactly representable in binary), the half rounds down to the
even 3.2; if the exact mean is 2.45 = 49/20 (not representable — its nearest
double lies above the half), the result rounds up to 2.5. -/
theorem claim10_amended_rounding :
    ∀ cases : List HistCase, cases ≠ [] →
      (ratMean (sentencesOf cases) = Rat.divInt 13 4 →
        (get_stats cases).map Stats.recommendation_months = some (Rat.divInt 16 5)) ∧
      (ratMean (sentencesOf cases) = Rat.divInt 49 20 →
        (get_stats cases).map Stats.recommendation_months = some (Rat.divInt 5 2)) := by
  intro cases hne
  cases cases with
  | nil => exact absurd rfl hne
  | cons a t =>
    constructor
    · intro hm
      show some (pyRound1 (fl (ratMean (sentencesOf (a :: t))))) = some (Rat.divInt 16 5)
      rw [hm]
      decide
    · intro hm
      show some (pyRound1 (fl (ratMean (sentencesOf (a :: t))))) = some (Rat.divInt 5 2)
      rw [hm]
      decide

/-- C10 witness: the amended theorem applied to the concrete four-case set
with mean 3.25 and to the concrete twenty-case set with mean 2.45. -/
theorem claim10_witness :
    (mean325cases ≠ [] ∧ ratMean (sentencesOf mean325cases) = Rat.divInt 13 4 ∧
      (get_stats mean325cases).map Stats.recommendation_months = some (Rat.divInt 16 5)) ∧
    (mean245cases ≠ [] ∧ ratMean (sentencesOf mean245cases) = Rat.divInt 49 20 ∧
      (get_stats mean245cases).map Stats.recommendation_months = some (Rat.divInt 5 2)) :=
  ⟨⟨by decide, by decide, (claim10_amended_rounding mean325cases (by decide)).1 (by decide)⟩,
   ⟨by decide, by decide, (claim10_amended_rounding mean245cases (by decide)).2 (by decide)⟩⟩

/-- A true boundsOk check transfers to the stated bound for the result of
the corresponding query. -/
theorem boundsOk_sound (c : String) (s : ℤ) (hok : boundsOk c s = true) :
    ∀ r, recommend_sentence c s = some r → r.status ≠ "Failed" →
      ∃ st, r.data = some st ∧
        ((st.min_sentence : ℚ) ≤ st.recommendation_months ∧
          st.recommendation_months ≤ (st.max_sentence : ℚ)) := by
  intro r hr hns
  unfold boundsOk at hok
  rw [hr] at hok
  have hb : (r.status == "Failed") = false := by
    cases hq : (r.status == "Failed") with
    | true => exact absurd (beq_iff_eq.mp hq) hns
    | false => rfl
  simp only [hb, Bool.false_or] at hok
  cases hd : r.data with
  | none => rw [hd] at hok; cases hok
  | some st =>
    rw [hd] at hok
    rw [Bool.and_eq_true, decide_eq_true_eq, decide_eq_true_eq] at hok
    exact ⟨st, rfl, hok⟩

/-- The boundsOk check holds for every query over a dataset crime type with
severity in the window [0,6] — the only queries that can produce a non-failed
status. -/
theorem boundsOk_range : ∀ (s : ℤ), 0 ≤ s → s ≤ 6 →
    ∀ c ∈ (["Theft", "Assault", "Burglary", "Fraud", "Vandalism"] : List String),
      boundsOk c s = true := by
  intro s h0 h6
  interval_cases s <;> decide

/-- C6: whenever the result status is not the no-data "Failed" status, the
returned statistics satisfy minSentence ≤ recommendationMonths ≤
maxSentence — the one-decimal rounding of the float mean never leaves the
[min, max] range of the matched sentence months. -/
theorem claim6_recommendation_within_bounds :
    ∀ (c : String) (s : ℤ) (r : SentencingResult),
      recommend_sentence c s = some r → r.status ≠ "Failed" →
      ∃ st, r.data = some st ∧
        ((st.min_sentence : ℚ) ≤ st.recommendation_months ∧
          st.recommendation_months ≤ (st.max_sentence : ℚ)) := by
  intro c s r hr hns
  by_cases hM : matching_cases c s = []
  · by_cases hS : similar_cases c s = []
    · have hfail : recommend_sentence c s =
          some { status := "Failed", data := none,
                 basis := "No historical data found for this crime type." } := by
        unfold recommend_sentence
        rw [hM, hS]
      rw [hfail] at hr
      rw [← Option.some.inj hr] at hns
      exact absurd rfl hns
    · cases hS2 : similar_cases c s with
      | nil => exact absurd hS2 hS
      | cons x rest =>
        have hx : x ∈ similar_cases c s := by
          rw [hS2]; exact List.mem_cons_self _ _
        obtain ⟨hmem, hp⟩ := List.mem_filter.mp hx
        rw [Bool.and_eq_true] at hp
        have hcrime := beq_iff_eq.mp hp.1
        obtain ⟨y, hy, hbeq⟩ := List.contains_iff_exists_mem_beq.mp hp.2
        obtain ⟨hyl, _⟩ := List.mem_filter.mp hy
        have hxy : x.severity_score = y := beq_iff_eq.mp hbeq
        have hb := sev_bounds x hmem
        have hcmem : c ∈ (["Theft", "Assault", "Burglary", "Fraud", "Vandalism"] : List String) := by
          rw [← hcrime]
          fin_cases hmem <;> decide
        have hrange : 0 ≤ s ∧ s ≤ 6 := by
          rcases List.mem_cons.mp hyl with rfl | h2
          · omega
          · rcases List.mem_cons.mp h2 with rfl | h3
            · omega
            · cases h3
        exact boundsOk_sound c s (boundsOk_range s hrange.1 hrange.2 c hcmem) r hr hns
  · cases hM2 : matching_cases c s with
    | nil => exact absurd hM2 hM
    | cons x rest =>
      have hx : x ∈ matching_cases c s := by
        rw [hM2]; exact List.mem_cons_self _ _
      obtain ⟨hmem, hp⟩ := List.mem_filter.mp hx
      rw [Bool.and_eq_true] at hp
      have hcrime := beq_iff_eq.mp hp.1
      have hsev := beq_iff_eq.mp hp.2
      have hb := sev_bounds x hmem
      have hcmem : c ∈ (["Theft", "Assault", "Burglary", "Fraud", "Vandalism"] : List String) := by
        rw [← hcrime]
        fin_cases hmem <;> decide
      exact boundsOk_sound c s (boundsOk_range s (by omega) (by omega) c hcmem) r hr hns

/-- C6 witness: the theorem applied at ("Theft", 2), whose concrete result
has status "Success" and statistics 3.5 / 3 / 4. -/
theorem claim6_witness :
    recommend_sentence "Theft" 2 =
      some { status := "Success",
             data := some { recommendation_months := Rat.divInt 7 2, min_sentence := 3,
                            max_sentence := 4, case_count := 2 },
             basis := "Direct match from 2 historical case(s)." } ∧
    ({ status := "Success",
       data := some { recommendation_months := Rat.divInt 7 2, min_sentence := 3,
                      max_sentence := 4, case_count := 2 },
       basis := "Direct match from 2 historical case(s)." } : SentencingResult).status ≠ "Failed" ∧
    ∃ st,
      ({ status := "Success",
         data := some { recommendation_months := Rat.divInt 7 2, min_sentence := 3,
                        max_sentence := 4, case_count := 2 },
         basis := "Direct match from 2 historical case(s)." } : SentencingResult).data = some st ∧
      ((st.min_sentence : ℚ) ≤ st.recommendation_months ∧
        st.recommendation_months ≤ (st.max_sentence : ℚ)) :=
  ⟨by decide, by decide,
   claim6_recommendation_within_bounds "Theft" 2
     { status := "Success",
       data := some { recommendation_months := Rat.divInt 7 2, min_sentence := 3,
                      max_sentence := 4, case_count := 2 },
       basis := "Direct match from 2 historical case(s)." } (by decide) (by decide)⟩
